import Mathlib

/-!
Shallow embedding of `src/3BodyProblem.py` (class `ThreeBodySimulator`)
and verification of the specification claims about it.

NumPy float arithmetic is modelled by exact real arithmetic (`ℝ`):
a length-2 row is a pair `ℝ × ℝ`, a 3-row array is `Fin 3 → ℝ × ℝ`,
`np.linalg.norm` on a row is `Real.sqrt` of the sum of squares, and a
`deque(maxlen = cap)` is a list with an evicting append (`dpush`).
The in-place mutation of the Python methods is modelled by explicit
state passing: each mutating method maps a `State` to a new `State`.
-/

noncomputable section

namespace ThreeBody

/-- A 2D vector: one row of a NumPy `(n, 2)` array. -/
abbrev V2 : Type := ℝ × ℝ

/-- Embedding of `np.linalg.norm` on a length-2 row. -/
def norm2 (v : V2) : ℝ := Real.sqrt (v.1 ^ 2 + v.2 ^ 2)

/-- Componentwise division of a row by a scalar (NumPy broadcast of `/`). -/
def sdiv (v : V2) (c : ℝ) : V2 := (v.1 / c, v.2 / c)

/-- Gravitational constant (m³/kg⋅s²), line 7. -/
def G : ℝ := 6.67430e-11

/-- Astronomical Unit in meters, line 8. -/
def AU : ℝ := 1.496e11

/-- Solar mass in kg, line 9. -/
def SOLAR_MASS : ℝ := 1.989e30

/-- One day in seconds, line 10. -/
def DAY : ℝ := 24 * 3600

/-- Mass scaling factor, line 13. -/
def MASS_SCALE : ℝ := SOLAR_MASS

/-- Distance scaling factor, line 14. -/
def DISTANCE_SCALE : ℝ := AU

/-- Time scaling factor, line 15. -/
def TIME_SCALE : ℝ := DAY * 1

/-- Scaled gravitational constant, line 18. -/
def G_scaled : ℝ := G * MASS_SCALE * TIME_SCALE ^ 2 / DISTANCE_SCALE ^ 3

/-- Append to a Python `deque(maxlen = cap)`: push on the right and drop
from the left whatever exceeds the capacity. -/
def dpush {α : Type*} (cap : ℕ) (xs : List α) (x : α) : List α :=
  (xs ++ [x]).drop ((xs ++ [x]).length - cap)

/-- The mutable fields of a `ThreeBodySimulator` instance. -/
structure State where
  masses : Fin 3 → ℝ
  positions : Fin 3 → V2
  velocities : Fin 3 → V2
  trajectories : Fin 3 → List V2
  dt : ℝ
  time : ℝ
  chaos_times : List ℝ
  chaos_seps : List ℝ
  chaos_lyap : List ℝ
  initial_separation : ℝ

/-- The softening length `0.0001 * DISTANCE_SCALE`, line 83. -/
def softening : ℝ := 0.0001 * DISTANCE_SCALE

/-- The softened distance `sqrt(distance**2 + softening**2)` of line 84,
for the ordered pair `(i, j)` (with `distance = |positions[j] - positions[i]|`). -/
def distance_softened (p : Fin 3 → V2) (i j : Fin 3) : ℝ :=
  Real.sqrt ((norm2 (p j - p i)) ^ 2 + softening ^ 2)

/-- Body of the inner loop of `compute_accelerations` (lines 80-86): the
acceleration contribution on body `i` from body `j`. -/
def pairAccel (m : Fin 3 → ℝ) (p : Fin 3 → V2) (i j : Fin 3) : V2 :=
  let r_vec := p j - p i
  let force_magnitude := G_scaled * m j / distance_softened p i j ^ 3
  force_magnitude • r_vec

/-- Body of `compute_accelerations` as a function of the masses and the positions:
for each `i`, sum the pair contributions over all `j ≠ i` (lines 74-87). -/
def accelOn (m : Fin 3 → ℝ) (p : Fin 3 → V2) : Fin 3 → V2 :=
  fun i => ∑ j, if j = i then 0 else pairAccel m p i j

/-- Method `compute_accelerations(self)`, lines 74-87: reads `self.masses` and
`self.positions`, mutates nothing. -/
def compute_accelerations (s : State) : Fin 3 → V2 :=
  accelOn s.masses s.positions

/-- Method `adjust_center_of_mass(self)`, lines 66-72. -/
def adjust_center_of_mass (s : State) : State :=
  let total_mass := ∑ i, s.masses i
  let com_pos := sdiv (∑ i, s.masses i • s.positions i) total_mass
  let com_vel := sdiv (∑ i, s.masses i • s.velocities i) total_mass
  { s with positions := fun i => s.positions i - com_pos,
           velocities := fun i => s.velocities i - com_vel }

/-- The `derivatives` helper inside `update_system`, lines 91-96: save
`self.positions`, overwrite them with the trial positions, call
`compute_accelerations`, restore the saved positions, and return the pair
`(vel, acc)`.  The (possibly mutated) instance is threaded explicitly,
so the helper returns the post-call state together with its value. -/
def derivatives (s : State) (pos vel : Fin 3 → V2) :
    State × ((Fin 3 → V2) × (Fin 3 → V2)) :=
  let old_pos := s.positions
  let s1 : State := { s with positions := pos }
  let acc := compute_accelerations s1
  let s2 : State := { s1 with positions := old_pos }
  (s2, (vel, acc))

/-- Embedding of `np.diff`: consecutive differences `xs[k+1] - xs[k]`. -/
def npDiff (xs : List ℝ) : List ℝ :=
  List.zipWith (fun a b => b - a) xs xs.tail

/-- Embedding of `np.mean`: sum divided by length. -/
def npMean (xs : List ℝ) : ℝ := xs.sum / xs.length

/-- Method `analyze_chaos(self)`, lines 117-131. -/
def analyze_chaos (s : State) : State :=
  let current_separation := norm2 (s.positions 1 - s.positions 2)
  let times1 := dpush 1000 s.chaos_times (s.time / (DAY * 365.25))
  let seps1 := dpush 1000 s.chaos_seps (current_separation / s.initial_separation)
  let lyap : ℝ :=
    if 10 < seps1.length then
      let valid_separations := seps1.filter (fun x => decide (1e-10 < x))
      if 5 < valid_separations.length then
        npMean (npDiff (valid_separations.map Real.log))
      else 0
    else 0
  { s with chaos_times := times1, chaos_seps := seps1,
           chaos_lyap := dpush 1000 s.chaos_lyap lyap }

/-- Method `update_system(self)`, lines 89-115: four `derivatives` evaluations,
the RK4 combination, the time increment, the trajectory append
(capacity `self.trajectory_length = 500`), and the chaos-analysis update. -/
def update_system (s : State) : State :=
  let d1 := derivatives s s.positions s.velocities
  let s1 := d1.1
  let k1_pos := d1.2.1
  let k1_vel := d1.2.2
  let d2 := derivatives s1 (s1.positions + (0.5 * s1.dt) • k1_pos)
                           (s1.velocities + (0.5 * s1.dt) • k1_vel)
  let s2 := d2.1
  let k2_pos := d2.2.1
  let k2_vel := d2.2.2
  let d3 := derivatives s2 (s2.positions + (0.5 * s2.dt) • k2_pos)
                           (s2.velocities + (0.5 * s2.dt) • k2_vel)
  let s3 := d3.1
  let k3_pos := d3.2.1
  let k3_vel := d3.2.2
  let d4 := derivatives s3 (s3.positions + s3.dt • k3_pos)
                           (s3.velocities + s3.dt • k3_vel)
  let s4 := d4.1
  let k4_pos := d4.2.1
  let k4_vel := d4.2.2
  let s5 : State :=
    { s4 with
      positions := s4.positions +
        (s4.dt / 6) • (k1_pos + (2 : ℝ) • k2_pos + (2 : ℝ) • k3_pos + k4_pos),
      velocities := s4.velocities +
        (s4.dt / 6) • (k1_vel + (2 : ℝ) • k2_vel + (2 : ℝ) • k3_vel + k4_vel),
      time := s4.time + s4.dt }
  let s6 : State :=
    { s5 with trajectories := fun i => dpush 500 (s5.trajectories i) (s5.positions i) }
  analyze_chaos s6

/-- Method `get_energy(self)`, lines 133-140: kinetic term from the broadcast
`masses[:, np.newaxis] * velocities**2`, potential term accumulated by
the double loop over pairs `(i, j)` with `j` in `range(i+1, 3)`. -/
def get_energy (s : State) : ℝ :=
  let kinetic := 0.5 * ∑ i,
    (s.masses i * (s.velocities i).1 ^ 2 + s.masses i * (s.velocities i).2 ^ 2)
  let potential := List.foldl
    (fun acc ij =>
      acc - G_scaled * s.masses ij.1 * s.masses ij.2 /
        norm2 (s.positions ij.2 - s.positions ij.1))
    0 [((0 : Fin 3), (1 : Fin 3)), (0, 2), (1, 2)]
  kinetic + potential

/-- The potential-energy contribution of one loop iteration of `get_energy`
(lines 136-139), with its unguarded division made explicit: the division by
`r = |positions[j] - positions[i]|` is performed only when `r ≠ 0`, and
the iteration is undefined (`none`) when `r = 0`. -/
def pairPotE (s : State) (i j : Fin 3) : Option ℝ :=
  let r := norm2 (s.positions j - s.positions i)
  if r = 0 then none else some (G_scaled * s.masses i * s.masses j / r)

/-- Variant of `get_energy` with the divisions by pairwise distances guarded: `none`
exactly when some loop iteration of lines 136-139 divides by zero. -/
def get_energyE (s : State) : Option ℝ :=
  let kinetic := 0.5 * ∑ i,
    (s.masses i * (s.velocities i).1 ^ 2 + s.masses i * (s.velocities i).2 ^ 2)
  (pairPotE s 0 1).bind fun t01 =>
    (pairPotE s 0 2).bind fun t02 =>
      (pairPotE s 1 2).bind fun t12 =>
        some (kinetic - t01 - t02 - t12)

/-- Constructor `__init__(self)`, lines 21-64: hard-coded masses, positions and
velocities, the center-of-mass adjustment, and the remaining fields.
The constructor takes no parameters. -/
def init : State :=
  let s0 : State :=
    { masses := fun i => (![1.0, 0.1, 0.05] : Fin 3 → ℝ) i * MASS_SCALE,
      positions := fun i =>
        DISTANCE_SCALE • (![((0 : ℝ), (0 : ℝ)), (1.5, 0.0), (0.75, 1.3)] : Fin 3 → V2) i,
      velocities := fun i =>
        Real.sqrt (G_scaled * MASS_SCALE / DISTANCE_SCALE) •
          (![((0 : ℝ), (1 : ℝ)), (0.0, -3.0), (-2.5, 1.5)] : Fin 3 → V2) i,
      trajectories := fun _ => [],
      dt := TIME_SCALE * 100,
      time := 0,
      chaos_times := [],
      chaos_seps := [],
      chaos_lyap := [],
      initial_separation := 0 }
  let s1 := adjust_center_of_mass s0
  { s1 with initial_separation := norm2 (s1.positions 1 - s1.positions 2) }

/-! ## Claim-side definitions (transcribed from the specification text) -/

/-- Claim C1 stage `k1 = (vel, accel(pos))`. -/
def rk4k1 (m : Fin 3 → ℝ) (p v : Fin 3 → V2) : (Fin 3 → V2) × (Fin 3 → V2) :=
  (v, accelOn m p)

/-- Claim C1 stage `k2 = (vel + ½Δt·k1.vel, accel(pos + ½Δt·k1.pos))`. -/
def rk4k2 (m : Fin 3 → ℝ) (p v : Fin 3 → V2) (dt : ℝ) :
    (Fin 3 → V2) × (Fin 3 → V2) :=
  (v + (dt / 2) • (rk4k1 m p v).2, accelOn m (p + (dt / 2) • (rk4k1 m p v).1))

/-- Claim C1 stage `k3 = (vel + ½Δt·k2.vel, accel(pos + ½Δt·k2.pos))`. -/
def rk4k3 (m : Fin 3 → ℝ) (p v : Fin 3 → V2) (dt : ℝ) :
    (Fin 3 → V2) × (Fin 3 → V2) :=
  (v + (dt / 2) • (rk4k2 m p v dt).2, accelOn m (p + (dt / 2) • (rk4k2 m p v dt).1))

/-- Claim C1 stage `k4 = (vel + Δt·k3.vel, accel(pos + Δt·k3.pos))`. -/
def rk4k4 (m : Fin 3 → ℝ) (p v : Fin 3 → V2) (dt : ℝ) :
    (Fin 3 → V2) × (Fin 3 → V2) :=
  (v + dt • (rk4k3 m p v dt).2, accelOn m (p + dt • (rk4k3 m p v dt).1))

/-! ## Helper lemmas -/

lemma norm2_sub_comm (a b : V2) : norm2 (a - b) = norm2 (b - a) := by
  simp only [norm2, Prod.fst_sub, Prod.snd_sub]
  congr 1
  ring

lemma norm2_nonneg (v : V2) : 0 ≤ norm2 v := Real.sqrt_nonneg _

lemma norm2_smul (c : ℝ) (v : V2) : norm2 (c • v) = |c| * norm2 v := by
  simp only [norm2, Prod.smul_fst, Prod.smul_snd, smul_eq_mul]
  rw [mul_pow, mul_pow, ← mul_add, Real.sqrt_mul (sq_nonneg c), Real.sqrt_sq_eq_abs]

lemma softening_pos : 0 < softening := by
  simp only [softening, DISTANCE_SCALE, AU]
  norm_num

lemma G_scaled_pos : 0 < G_scaled := by
  simp only [G_scaled, G, MASS_SCALE, SOLAR_MASS, TIME_SCALE, DAY, DISTANCE_SCALE, AU]
  positivity

lemma distance_softened_pos (p : Fin 3 → V2) (i j : Fin 3) :
    0 < distance_softened p i j :=
  Real.sqrt_pos.mpr
    (add_pos_of_nonneg_of_pos (sq_nonneg _) (pow_pos softening_pos 2))

lemma distance_softened_sq (p : Fin 3 → V2) (i j : Fin 3) :
    distance_softened p i j ^ 2 = (norm2 (p j - p i)) ^ 2 + softening ^ 2 :=
  Real.sq_sqrt (add_nonneg (sq_nonneg _) (sq_nonneg _))

/-! ## Claims -/

/-- Claim C1: one call to `update_system` implements one classical RK4 step
for `dpos/dt = vel`, `dvel/dt = accel(pos)`: for every state the new
positions are `pos + (Δt/6)(k1.pos + 2k2.pos + 2k3.pos + k4.pos)`, the new
velocities are `vel + (Δt/6)(k1.vel + 2k2.vel + 2k3.vel + k4.vel)` with the
four stages exactly as in the claim, and the time accumulator grows by
exactly `Δt`. -/
theorem C1_update_system_is_classical_rk4 (s : State) :
    (update_system s).positions = s.positions + (s.dt / 6) •
      ((rk4k1 s.masses s.positions s.velocities).1
        + (2 : ℝ) • (rk4k2 s.masses s.positions s.velocities s.dt).1
        + (2 : ℝ) • (rk4k3 s.masses s.positions s.velocities s.dt).1
        + (rk4k4 s.masses s.positions s.velocities s.dt).1) ∧
    (update_system s).velocities = s.velocities + (s.dt / 6) •
      ((rk4k1 s.masses s.positions s.velocities).2
        + (2 : ℝ) • (rk4k2 s.masses s.positions s.velocities s.dt).2
        + (2 : ℝ) • (rk4k3 s.masses s.positions s.velocities s.dt).2
        + (rk4k4 s.masses s.positions s.velocities s.dt).2) ∧
    (update_system s).time = s.time + s.dt := by
  have h05 : ∀ x : ℝ, 0.5 * x = x / 2 := fun x => by
    rw [show (0.5 : ℝ) = 1 / 2 by norm_num]; ring
  refine ⟨?_, ?_, ?_⟩ <;>
    simp only [update_system, derivatives, compute_accelerations, analyze_chaos,
      rk4k1, rk4k2, rk4k3, rk4k4, h05]

/-- Claim C2: each RK4 stage's acceleration is evaluated against that
stage's own trial positions, and the `derivatives` helper leaves the whole
authoritative state (masses, positions, velocities, time, everything)
exactly as it was before the call. -/
theorem C2_derivatives_restores_state (s : State) (pos vel : Fin 3 → V2) :
    derivatives s pos vel = (s, (vel, accelOn s.masses pos)) := rfl

/-- Claim C8: `update_system` consumes no input other than the state, so
two field-for-field equal states stepped the same number of times yield
equal states, in particular identical trajectories. -/
theorem C8_deterministic (N : ℕ) (s1 s2 : State) (h : s1 = s2) :
    update_system^[N] s1 = update_system^[N] s2 := by rw [h]

/-- Claim C3: after `adjust_center_of_mass` (run by the constructor on
the initial data) the weighted sums `Σ mass[i]·position[i]` and
`Σ mass[i]·velocity[i]` are both exactly the zero vector, for every
configuration with positive total mass. -/
theorem C3_center_of_mass_zero (s : State) (h : 0 < ∑ i, s.masses i) :
    (∑ i, s.masses i • (adjust_center_of_mass s).positions i) = (0 : V2) ∧
    (∑ i, s.masses i • (adjust_center_of_mass s).velocities i) = (0 : V2) := by
  have ht : s.masses 0 + s.masses 1 + s.masses 2 ≠ 0 := by
    rw [Fin.sum_univ_three] at h
    exact ne_of_gt h
  constructor <;>
  · simp only [adjust_center_of_mass, sdiv, Fin.sum_univ_three]
    refine Prod.ext_iff.mpr ⟨?_, ?_⟩ <;>
      simp only [Prod.fst_add, Prod.snd_add, Prod.smul_fst, Prod.smul_snd,
        Prod.fst_sub, Prod.snd_sub, Prod.fst_zero, Prod.snd_zero, smul_eq_mul] <;>
      field_simp <;> ring

/-- Claim C4: Newton's third law. For any state (any positions, positive
masses) and any distinct bodies `i`, `j`, the force `mass[i] •
pairAccel i j` is exactly the negation of `mass[j] • pairAccel j i`,
where `pairAccel` is the pairwise contribution computed inside
`compute_accelerations`. -/
theorem C4_newton_third_law (m : Fin 3 → ℝ) (p : Fin 3 → V2) (i j : Fin 3)
    (hij : i ≠ j) (h0 : 0 < m 0) (h1 : 0 < m 1) (h2 : 0 < m 2) :
    m i • pairAccel m p i j = -(m j • pairAccel m p j i) := by
  simp only [pairAccel, distance_softened]
  rw [norm2_sub_comm (p i) (p j)]
  refine Prod.ext_iff.mpr ⟨?_, ?_⟩ <;>
    simp only [Prod.smul_fst, Prod.smul_snd, Prod.fst_sub, Prod.snd_sub,
      Prod.fst_neg, Prod.snd_neg, smul_eq_mul] <;>
    ring

/-- Witness for C4 at a concrete state. -/
theorem C4_newton_third_law_witness :
    ((0 : Fin 3) ≠ (1 : Fin 3) ∧
      0 < (fun _ : Fin 3 => (1 : ℝ)) 0 ∧
      0 < (fun _ : Fin 3 => (1 : ℝ)) 1 ∧
      0 < (fun _ : Fin 3 => (1 : ℝ)) 2) ∧
    (fun _ : Fin 3 => (1 : ℝ)) 0 •
        pairAccel (fun _ => 1) (fun k => ((k : ℝ), 0)) 0 1 =
      -((fun _ : Fin 3 => (1 : ℝ)) 1 •
        pairAccel (fun _ => 1) (fun k => ((k : ℝ), 0)) 1 0) :=
  ⟨⟨by decide, by norm_num, by norm_num, by norm_num⟩,
    C4_newton_third_law (fun _ => 1) (fun k => ((k : ℝ), 0)) 0 1
      (by decide) (by norm_num) (by norm_num) (by norm_num)⟩

/-- Claim C5: softening totality and bound.  The softened denominator is
never zero (for every input, including coincident bodies), and the
magnitude of the pairwise acceleration contribution is bounded by
`G_scaled·mass[j]/ε²`. -/
theorem C5_softening_total_and_bounded (m : Fin 3 → ℝ) (p : Fin 3 → V2)
    (i j : Fin 3) (hm : 0 ≤ m j) :
    distance_softened p i j ^ 3 ≠ 0 ∧
    norm2 (pairAccel m p i j) ≤ G_scaled * m j / softening ^ 2 := by
  have hD : 0 < distance_softened p i j := distance_softened_pos p i j
  refine ⟨pow_ne_zero 3 (ne_of_gt hD), ?_⟩
  have hn0 : 0 ≤ norm2 (p j - p i) := norm2_nonneg _
  have hcoef : 0 ≤ G_scaled * m j / distance_softened p i j ^ 3 :=
    div_nonneg (mul_nonneg G_scaled_pos.le hm) (pow_pos hD 3).le
  have hstep : norm2 (pairAccel m p i j) =
      G_scaled * m j / distance_softened p i j ^ 3 * norm2 (p j - p i) := by
    simp only [pairAccel]
    rw [norm2_smul, abs_of_nonneg hcoef]
  rw [hstep]
  have hnD : norm2 (p j - p i) ≤ distance_softened p i j := by
    conv_lhs => rw [← Real.sqrt_sq hn0]
    exact Real.sqrt_le_sqrt (le_add_of_nonneg_right (sq_nonneg _))
  calc G_scaled * m j / distance_softened p i j ^ 3 * norm2 (p j - p i)
      ≤ G_scaled * m j / distance_softened p i j ^ 3 * distance_softened p i j :=
        mul_le_mul_of_nonneg_left hnD hcoef
    _ = G_scaled * m j / distance_softened p i j ^ 2 := by
        field_simp
        ring
    _ ≤ G_scaled * m j / softening ^ 2 := by
        gcongr
        all_goals
          first
          | exact mul_nonneg G_scaled_pos.le hm
          | exact softening_pos.le
          | exact softening_pos
          | exact pow_pos softening_pos 2
          | (conv_lhs => rw [← Real.sqrt_sq softening_pos.le]
             exact Real.sqrt_le_sqrt (le_add_of_nonneg_left (sq_nonneg _)))

/-- Witness for C5 at a concrete input with the two bodies exactly
coincident. -/
theorem C5_softening_total_and_bounded_witness :
    (0 : ℝ) ≤ (fun _ : Fin 3 => (1 : ℝ)) 1 ∧
    (distance_softened (fun _ => ((0 : ℝ), (0 : ℝ))) 0 1 ^ 3 ≠ 0 ∧
      norm2 (pairAccel (fun _ => 1) (fun _ => ((0 : ℝ), (0 : ℝ))) 0 1) ≤
        G_scaled * (fun _ : Fin 3 => (1 : ℝ)) 1 / softening ^ 2) :=
  ⟨by norm_num,
    C5_softening_total_and_bounded (fun _ => 1) (fun _ => ((0 : ℝ), (0 : ℝ)))
      0 1 (by norm_num)⟩

/-- A concrete, fully explicit simulator state used to instantiate
hypotheses of the universally quantified theorems. -/
def cstate : State :=
  { masses := ![2, 1, 1],
    positions := ![((0 : ℝ), (0 : ℝ)), (1, 0), (0, 1)],
    velocities := ![((1 : ℝ), (0 : ℝ)), (0, 1), (1, 1)],
    trajectories := fun _ => [],
    dt := 1,
    time := 0,
    chaos_times := [],
    chaos_seps := [],
    chaos_lyap := [],
    initial_separation := 1 }

/-- Witness for C3 at the concrete state `cstate`. -/
theorem C3_center_of_mass_zero_witness :
    (0 < ∑ i, cstate.masses i) ∧
    ((∑ i, cstate.masses i • (adjust_center_of_mass cstate).positions i) = (0 : V2) ∧
     (∑ i, cstate.masses i • (adjust_center_of_mass cstate).velocities i) = (0 : V2)) :=
  ⟨by norm_num [cstate, Fin.sum_univ_three],
   C3_center_of_mass_zero cstate (by norm_num [cstate, Fin.sum_univ_three])⟩

/-- The energy functional exactly as the specification words it:
`Σ ½·mass[i]·|vel[i]|²` plus `Σ_{i<j} −G_scaled·mass[i]·mass[j]/|pos[i]−pos[j]|`,
with the exact, unsoftened pairwise distance (no softening anywhere). -/
def energySpec (s : State) : ℝ :=
  (∑ i, 1 / 2 * s.masses i * norm2 (s.velocities i) ^ 2) +
  ∑ i, ∑ j ∈ Finset.univ.filter (fun j => i < j),
    -(G_scaled * s.masses i * s.masses j / norm2 (s.positions i - s.positions j))

/-- Claim C6: `get_energy` is a pure function of the state (in this
embedding it maps the state to a scalar and returns no modified state)
and returns exactly the spec's kinetic-plus-unsoftened-potential value. -/
theorem C6_energy_formula (s : State) : get_energy s = energySpec s := by
  have hsq : ∀ v : V2, norm2 v ^ 2 = v.1 ^ 2 + v.2 ^ 2 := fun v =>
    Real.sq_sqrt (by positivity)
  simp only [get_energy, energySpec, List.foldl_cons, List.foldl_nil, hsq,
    Finset.sum_filter, Fin.sum_univ_three]
  simp +decide only [if_true, if_false]
  rw [norm2_sub_comm (s.positions 0) (s.positions 1),
      norm2_sub_comm (s.positions 0) (s.positions 2),
      norm2_sub_comm (s.positions 1) (s.positions 2),
      show (0.5 : ℝ) = 1 / 2 by norm_num]
  ring

/-- The mean of the discrete differences of `ln(ratio)` across consecutive
valid samples, as the specification words it. -/
def meanDiffLn (valid : List ℝ) : ℝ :=
  (List.zipWith (fun a b => Real.log b - Real.log a) valid valid.tail).sum /
  (List.zipWith (fun a b => Real.log b - Real.log a) valid valid.tail).length

/-- The lyapunov value appended by one chaos-analysis update, exactly as
claim C7 words it: with 10 or fewer samples emit 0; otherwise filter out
ratios *below* `1e-10` (keeping a ratio exactly equal to `1e-10`), and if
more than 5 valid samples remain emit the mean of the discrete differences
of `ln(ratio)`, else 0. -/
def lyapClaim (s : State) : ℝ :=
  let ratio := norm2 (s.positions 1 - s.positions 2) / s.initial_separation
  let series := dpush 1000 s.chaos_seps ratio
  if series.length ≤ 10 then 0
  else
    let valid := series.filter (fun x => decide (1e-10 ≤ x))
    if 5 < valid.length then meanDiffLn valid else 0

/-- The lyapunov value appended by one chaos-analysis update, as amended:
ratios *at or below* `1e-10` are filtered out (only ratios strictly greater
than `1e-10` are kept); the rest as in the claim. -/
def lyapAmended (s : State) : ℝ :=
  let ratio := norm2 (s.positions 1 - s.positions 2) / s.initial_separation
  let series := dpush 1000 s.chaos_seps ratio
  if series.length ≤ 10 then 0
  else
    let valid := series.filter (fun x => decide (1e-10 < x))
    if 5 < valid.length then meanDiffLn valid else 0

lemma dpush_small {α : Type*} (cap : ℕ) (xs : List α) (x : α)
    (h : xs.length + 1 ≤ cap) : dpush cap xs x = xs ++ [x] := by
  have hl : (xs ++ [x]).length = xs.length + 1 := by simp
  rw [dpush, hl, Nat.sub_eq_zero_of_le h, List.drop_zero]

lemma npMean_npDiff_log (valid : List ℝ) :
    npMean (npDiff (valid.map Real.log)) = meanDiffLn valid := by
  simp only [npMean, npDiff, meanDiffLn, ← List.map_tail, List.zipWith_map]

/-- Concrete state refuting claim C7's filter boundary: the next separation
ratio is exactly `1e-10` (bodies 2 and 3 are `5` apart and the initial
separation is `5e10`), and the ten stored ratios are five `2`s followed by
five `1e-10`s. -/
def s7 : State :=
  { masses := fun _ => 1,
    positions := ![((0 : ℝ), (0 : ℝ)), (3, 4), (0, 0)],
    velocities := fun _ => (0, 0),
    trajectories := fun _ => [],
    dt := 1,
    time := 0,
    chaos_times := [],
    chaos_seps := [2, 2, 2, 2, 2, 1e-10, 1e-10, 1e-10, 1e-10, 1e-10],
    chaos_lyap := [],
    initial_separation := 5e10 }

/-- Counterexample to claim C7 as stated: at `s7` the series holds 11
samples and the new ratio is exactly `1e-10`; the code filters that ratio
out (its filter keeps only ratios strictly greater than `1e-10`), leaving
5 valid samples, and appends 0 — but the claim's rule that only ratios
below `1e-10` are filtered out keeps a ratio equal to `1e-10`, yielding 11
valid samples and a nonzero mean of log-differences. -/
theorem C7_chaos_counterexample :
    (analyze_chaos s7).chaos_lyap = [0] ∧ lyapClaim s7 ≠ 0 := by
  have hsub : s7.positions 1 - s7.positions 2 = ((3 : ℝ), (4 : ℝ)) := by
    norm_num [s7]
  have hsep : norm2 (s7.positions 1 - s7.positions 2) = 5 := by
    rw [hsub]
    have h25 : ((3 : ℝ), (4 : ℝ)).1 ^ 2 + ((3 : ℝ), (4 : ℝ)).2 ^ 2 = 5 ^ 2 := by
      norm_num
    rw [norm2, h25, Real.sqrt_sq (by norm_num : (0 : ℝ) ≤ 5)]
  have hratio : norm2 (s7.positions 1 - s7.positions 2) / s7.initial_separation
      = 1e-10 := by
    rw [hsep]
    norm_num [s7]
  have hseries : dpush 1000 s7.chaos_seps
      (norm2 (s7.positions 1 - s7.positions 2) / s7.initial_separation) =
      [2, 2, 2, 2, 2, 1e-10, 1e-10, 1e-10, 1e-10, 1e-10, 1e-10] := by
    rw [hratio, dpush_small 1000 _ _ (by norm_num [s7])]
    norm_num [s7]
  constructor
  · simp only [analyze_chaos, hseries]
    rw [if_pos (by norm_num)]
    have hfilter : ([2, 2, 2, 2, 2, 1e-10, 1e-10, 1e-10, 1e-10, 1e-10, 1e-10]
        : List ℝ).filter (fun x => decide (1e-10 < x)) = [2, 2, 2, 2, 2] := by
      norm_num [List.filter]
    rw [hfilter, if_neg (by norm_num)]
    simp [dpush, s7]
  · simp only [lyapClaim, hseries]
    rw [if_neg (by norm_num)]
    have hfilter : ([2, 2, 2, 2, 2, 1e-10, 1e-10, 1e-10, 1e-10, 1e-10, 1e-10]
        : List ℝ).filter (fun x => decide (1e-10 ≤ x)) =
        [2, 2, 2, 2, 2, 1e-10, 1e-10, 1e-10, 1e-10, 1e-10, 1e-10] := by
      norm_num [List.filter]
    rw [hfilter, if_pos (by norm_num)]
    have hlog : Real.log 1e-10 < 0 := Real.log_neg (by norm_num) (by norm_num)
    have hlog2 : 0 < Real.log 2 := Real.log_pos (by norm_num)
    simp only [meanDiffLn, List.tail_cons, List.zipWith_cons_cons,
      List.zipWith_nil_right, List.zipWith_nil_left, List.sum_cons,
      List.sum_nil, List.length_cons, List.length_nil]
    apply ne_of_lt
    apply div_neg_of_neg_of_pos
    · ring_nf
      nlinarith
    · norm_num

/-- Claim C7 (amended): each chaos-analysis update appends exactly one
entry to each of the three bounded series — the time in years, the
separation ratio (current separation of bodies 2 and 3 over the initial
separation), and the lyapunov value, the latter exactly as described by
the claim except that ratios *at or below* `1e-10` are filtered out. -/
theorem C7_chaos_record_amended (s : State) :
    (analyze_chaos s).chaos_times =
      dpush 1000 s.chaos_times (s.time / (DAY * 365.25)) ∧
    (analyze_chaos s).chaos_seps =
      dpush 1000 s.chaos_seps
        (norm2 (s.positions 1 - s.positions 2) / s.initial_separation) ∧
    (analyze_chaos s).chaos_lyap = dpush 1000 s.chaos_lyap (lyapAmended s) := by
  refine ⟨by simp only [analyze_chaos], by simp only [analyze_chaos], ?_⟩
  simp only [analyze_chaos, lyapAmended]
  refine congrArg (dpush 1000 s.chaos_lyap) ?_
  rcases le_or_lt
    (dpush 1000 s.chaos_seps
      (norm2 (s.positions 1 - s.positions 2) / s.initial_separation)).length 10
    with h | h
  · rw [if_neg (not_lt.mpr h), if_pos h]
  · rw [if_pos h, if_neg (not_le.mpr h), npMean_npDiff_log]

/-- Counterexample to claim C9 as stated: the constructor accepts no
per-body mass/position/velocity arrays at all — `init` is a closed
constant, and the masses of the one constructible simulator state are the
hard-coded values `[1.0, 0.1, 0.05] * MASS_SCALE`; no caller-supplied
configuration (in particular none with a zero or negative mass, and none
with mismatched array lengths) can ever reach construction, and no
validation code exists. -/
theorem C9_construction_counterexample :
    init.masses 0 = 1.0 * MASS_SCALE ∧
    init.masses 1 = 0.1 * MASS_SCALE ∧
    init.masses 2 = 0.05 * MASS_SCALE :=
  ⟨rfl, rfl, rfl⟩

/-- Claim C9 (amended): construction takes no configuration parameters;
the hard-coded masses are all strictly positive and the hard-coded arrays
all have length three (the index type `Fin 3`), so construction always
succeeds, producing one fixed state, and no configuration-error path
exists. -/
theorem C9_construction_amended :
    0 < init.masses 0 ∧ 0 < init.masses 1 ∧ 0 < init.masses 2 := by
  have h : init.masses = fun i => (![1.0, 0.1, 0.05] : Fin 3 → ℝ) i * MASS_SCALE :=
    rfl
  rw [h]
  norm_num [MASS_SCALE, SOLAR_MASS]

/-- Claim C10: `get_energy` divides by the unsoftened, unguarded pairwise
distance: whenever two distinct bodies coincide, the guarded embedding
`get_energyE` hits a division by a zero distance (`none`); and whenever
all pairwise distances are nonzero, the division-by-zero branch is
unreachable and `get_energyE` returns exactly `get_energy`. -/
theorem C10_get_energy_zero_distance (s : State) :
    ((∃ i j : Fin 3, i ≠ j ∧ s.positions i = s.positions j) →
      get_energyE s = none) ∧
    ((∀ i j : Fin 3, i ≠ j → norm2 (s.positions i - s.positions j) ≠ 0) →
      get_energyE s = some (get_energy s)) := by
  constructor
  · rintro ⟨i, j, hij, hpp⟩
    have hnone : ∀ a b : Fin 3, s.positions a = s.positions b →
        pairPotE s b a = none := by
      intro a b h
      simp only [pairPotE]
      rw [h, sub_self]
      simp [norm2]
    have c01 : pairPotE s 0 1 = none → get_energyE s = none := by
      intro h
      simp [get_energyE, h]
    have c02 : pairPotE s 0 2 = none → get_energyE s = none := by
      intro h
      rcases h01 : pairPotE s 0 1 with _ | t01 <;> simp [get_energyE, h01, h]
    have c12 : pairPotE s 1 2 = none → get_energyE s = none := by
      intro h
      rcases h01 : pairPotE s 0 1 with _ | t01 <;>
        rcases h02 : pairPotE s 0 2 with _ | t02 <;>
          simp [get_energyE, h01, h02, h]
    fin_cases i <;> fin_cases j
    · exact absurd rfl hij
    · exact c01 (hnone 1 0 hpp.symm)
    · exact c02 (hnone 2 0 hpp.symm)
    · exact c01 (hnone 1 0 hpp)
    · exact absurd rfl hij
    · exact c12 (hnone 2 1 hpp.symm)
    · exact c02 (hnone 2 0 hpp)
    · exact c12 (hnone 2 1 hpp)
    · exact absurd rfl hij
  · intro h
    have p01 : pairPotE s 0 1 =
        some (G_scaled * s.masses 0 * s.masses 1 /
          norm2 (s.positions 1 - s.positions 0)) := by
      simp only [pairPotE]
      rw [if_neg (h 1 0 (by decide))]
    have p02 : pairPotE s 0 2 =
        some (G_scaled * s.masses 0 * s.masses 2 /
          norm2 (s.positions 2 - s.positions 0)) := by
      simp only [pairPotE]
      rw [if_neg (h 2 0 (by decide))]
    have p12 : pairPotE s 1 2 =
        some (G_scaled * s.masses 1 * s.masses 2 /
          norm2 (s.positions 2 - s.positions 1)) := by
      simp only [pairPotE]
      rw [if_neg (h 2 1 (by decide))]
    simp only [get_energyE, p01, p02, p12, Option.some_bind]
    refine congrArg some ?_
    simp only [get_energy, List.foldl_cons, List.foldl_nil]
    ring

/-- A concrete state with bodies 1 and 2 exactly coincident. -/
def czero : State :=
  { cstate with positions := ![((0 : ℝ), (0 : ℝ)), (0, 0), (1, 0)] }

/-- Witness for C10: at `czero` (two coincident bodies) the energy
computation hits the zero division; at `cstate` (all pairwise distances
nonzero) it is total and agrees with `get_energy`. -/
theorem C10_get_energy_zero_distance_witness :
    get_energyE czero = none ∧ get_energyE cstate = some (get_energy cstate) :=
  ⟨(C10_get_energy_zero_distance czero).1 ⟨0, 1, by decide, by norm_num [czero, cstate]⟩,
   (C10_get_energy_zero_distance cstate).2 (by
      intro i j hij
      fin_cases i <;> fin_cases j <;>
        first
        | exact absurd rfl hij
        | (simp only [cstate, norm2, Matrix.cons_val_zero, Matrix.cons_val_one,
            Matrix.head_cons, Matrix.cons_val_two, Matrix.tail_cons,
            Prod.fst_sub, Prod.snd_sub]
           rw [Real.sqrt_ne_zero']
           norm_num))⟩

/-- Witness for C8 at a concrete state. -/
theorem C8_deterministic_witness :
    cstate = cstate ∧ update_system^[3] cstate = update_system^[3] cstate :=
  ⟨rfl, C8_deterministic 3 cstate cstate rfl⟩

end ThreeBody
